import Mathlib

/-!
Verification development for the human annotation server
(src/human_annotate/human_annotation.py).

Shallow-embedding conventions:

* Python exceptions are modelled by Except String; the string renders the
  exception type and message.
* threading.Event is modelled by a Bool (true = signaled).  The event that
  Python passes to the post methods is threaded through explicitly and the
  possibly-updated value is returned.
* Python dicts with string keys are modelled by association lists in
  insertion order.  A dict subscript that can raise KeyError is modelled by
  List.lookup followed by an explicit Except.error on none.
* pydantic TypeAdapter.validate_json and TypeAdapter.json_schema are
  external collaborators.  They are modelled concretely for the field
  annotations the repository uses (str, int, Literal of strings); error
  message texts of the validator are abstracted to fixed strings, which no
  claim depends on.
* fasthtml components are modelled by a small component tree carrying the
  dynamic arguments and the literal cls strings the source passes.
* Error-message strings reproduce the Python text; the quote character
  inside them is built with the constant pyq below.
-/

/-- The single quote character, used in modelled Python exception messages. -/
def pyq : String := String.mk [Char.ofNat 39]

/-- A parsed (validated) field value: the repository only ever validates
string-typed and int-typed JSON payloads. -/
inductive Value where
  | str (s : String)
  | int (n : Int)
deriving DecidableEq, Repr

/-- The field annotations that occur in the repository: str, int, and
Literal over string alternatives (cf. tests MockSignature and
MockSignatureWithEnum, and the int example of the spec). -/
inductive FieldType where
  | str
  | int
  | lit (values : List String)
deriving DecidableEq, Repr

/-- Parse a JSON string literal: a leading quote, a trailing quote, and no
quote in between.  Models the JSON layer of TypeAdapter.validate_json for
string payloads. -/
def parseJsonStr (s : String) : Option String :=
  match s.data with
  | [] => none
  | c :: rest =>
    if c = '"' ∧ rest ≠ [] ∧ rest.getLast? = some '"' ∧ rest.dropLast.all (fun d => d != '"') then
      some (String.mk rest.dropLast)
    else none

/-- Parse a JSON integer literal: an optional minus sign followed by digits.
Models the JSON layer of TypeAdapter.validate_json for int payloads. -/
def parseJsonInt (s : String) : Option Int :=
  match s.data with
  | [] => none
  | '-' :: ds =>
    if ds ≠ [] ∧ ds.all Char.isDigit then
      some (-(ds.foldl (fun n c => n * 10 + (c.toNat - 48)) 0 : Nat))
    else none
  | ds =>
    if ds.all Char.isDigit then
      some ((ds.foldl (fun n c => n * 10 + (c.toNat - 48)) 0 : Nat) : Int)
    else none

/-- Models TypeAdapter(field.annotation).validate_json(value): parse the raw
submitted string as JSON and check it against the annotation, returning the
parsed value or a validation error message. -/
def validate_json : FieldType → String → Except String Value
  | FieldType.str, raw =>
    match parseJsonStr raw with
    | some s => Except.ok (Value.str s)
    | none => Except.error "Input should be a valid string"
  | FieldType.int, raw =>
    match parseJsonInt raw with
    | some n => Except.ok (Value.int n)
    | none => Except.error "Input should be a valid integer"
  | FieldType.lit vs, raw =>
    match parseJsonStr raw with
    | some s =>
      if s ∈ vs then Except.ok (Value.str s)
      else Except.error "Input should be one of the permitted values"
    | none => Except.error "Input should be a valid string"

/-- Models schema.get of the enum key on
TypeAdapter(field.annotation).json_schema(): the allowed values of a Literal
annotation, and the empty list (falsy, like an absent enum key) otherwise. -/
def enumValues : FieldType → List String
  | FieldType.lit vs => vs
  | _ => []

/-- FormData wraps a dict from field name to raw string; modelled as an
association list in insertion order. -/
abbrev FormData := List (String × String)

/-- An input field descriptor: only its description is consumed (by _form). -/
structure InputField where
  description : Option String
deriving DecidableEq, Repr

/-- A dspy Signature: ordered input fields and ordered output fields. -/
structure Signature where
  input_fields : List (String × InputField)
  output_fields : List (String × FieldType)
deriving DecidableEq, Repr

/-- The fasthtml component tree, restricted to the components the source
builds; each constructor carries the dynamic arguments and the cls string
of the corresponding call site. -/
inductive Component where
  | h1 (text cls : String)
  | h2 (text cls : String)
  | h3 (text cls : String)
  | p (text cls : String)
  | label (text fr cls : String)
  | radioInput (id nm value : String) (checked : Bool) (cls : String)
  | textarea (value id nm cls : String)
  | br
  | submitInput (cls : String)
  | form (children : List Component)
  | div (children : List Component) (cls : String)

/-- A dspy Prediction built by Prediction.from_completions: for each output
field, a completion list of values, plus the signature. -/
structure Prediction where
  completions : List (String × List Value)
  signature : Signature
deriving Repr

/-- The waiting placeholder markup, returned verbatim by both Waiting.get
and Result.get. -/
def waitingDiv : Component :=
  Component.div
    [Component.p "Annotation submitted. Waiting for next request..." "text-lg text-gray-700"]
    "max-w-2xl mx-auto p-8 bg-white rounded-lg shadow-lg text-center"

/-- The Result server state: holds the validated prediction. -/
structure Result where
  prediction : Prediction
deriving Repr

/-- Result.get: the waiting placeholder (identical markup to Waiting.get). -/
def Result.get (_ : Result) : Component := waitingDiv

/-- The Query server state: a signature bound to input values. -/
structure Query where
  signature : Signature
  data : FormData
deriving Repr

/-- Query.__init__: for each declared input field name, in order, raise
ValueError if it is absent from data; otherwise store signature and data. -/
def Query.init (signature : Signature) (data : FormData) : Except String Query :=
  match signature.input_fields.find? (fun p => (data.lookup p.1).isNone) with
  | some p => Except.error ("Missing input field " ++ pyq ++ p.1 ++ pyq ++ " in data")
  | none => Except.ok ⟨signature, data⟩

/-- Python: description or name — the empty string is falsy and also falls
back to the name. -/
def pyOr : Option String → String → String
  | some s, nm => if s = "" then nm else s
  | none, nm => nm

/-- The input-display loop of _form: for each bound input, an H3 with the
field description (or the name) and a P with the value.  The subscript
signature.input_fields[name] raises KeyError when the name is not a
declared input field. -/
def inputDisplays (signature : Signature) : FormData → Except String (List Component)
  | [] => Except.ok []
  | (nm, value) :: rest =>
    match signature.input_fields.lookup nm with
    | none => Except.error ("KeyError: " ++ pyq ++ nm ++ pyq)
    | some field =>
      match inputDisplays signature rest with
      | Except.error e => Except.error e
      | Except.ok tail =>
        Except.ok (Component.h3 (pyOr field.description nm) "text-xl font-semibold mt-4" ::
                   Component.p value "text-gray-700" :: tail)

/-- The per-output-field body of the _form loop: a radio group when the JSON
schema carries a (nonempty, hence truthy) enum list — one radio per allowed
value, checked when the current draft value equals that value — otherwise a
label and a textarea seeded with the current draft value; then the error
paragraph when a nonempty (truthy) error string is attached, and a line
break. -/
def formField (name : String) (ft : FieldType) (filled_outputs : FormData)
    (outputs_errors : List (String × String)) : List Component :=
  let error := outputs_errors.lookup name
  let value := (filled_outputs.lookup name).getD ""
  let vs := enumValues ft
  (if vs ≠ [] then
    Component.label name name "block text-gray-700 text-sm font-bold mb-2" ::
      vs.flatMap (fun v =>
        [Component.radioInput (name ++ "_" ++ v) name ("\"" ++ v ++ "\"") (value == v) "mr-2",
         Component.label v (name ++ "_" ++ v) "mr-4"])
  else
    [Component.label (name ++ ": ") name "block text-gray-700 text-sm font-bold mb-2",
     Component.textarea value name name "shadow appearance-none border rounded w-full py-2 px-3 text-gray-700 leading-tight focus:outline-none focus:shadow-outline"])
  ++ (match error with
      | some e => if e ≠ "" then [Component.p e "text-red-500 text-xs italic mt-1"] else []
      | none => [])
  ++ [Component.br]

/-- The whole output-field loop of _form. -/
def formOutputs : List (String × FieldType) → FormData → List (String × String) → List Component
  | [], _, _ => []
  | (name, ft) :: rest, filled_outputs, outputs_errors =>
    formField name ft filled_outputs outputs_errors ++ formOutputs rest filled_outputs outputs_errors

/-- _form: the full form page for a signature, bound inputs, current draft
output values and current per-field errors.  Propagates the KeyError that
the input-display loop can raise. -/
def _form (signature : Signature) (inputs : FormData) (filled_outputs : FormData)
    (outputs_errors : List (String × String)) : Except String Component :=
  match inputDisplays signature inputs with
  | Except.error e => Except.error e
  | Except.ok ids =>
    Except.ok (Component.div
      [Component.h1 "Annotation Request" "text-4xl font-bold mb-8",
       Component.div (Component.h2 "Inputs" "text-2xl font-bold mb-4" :: ids) "mb-8",
       Component.p "Please provide the following information:" "text-gray-700 mb-4",
       Component.form
         (formOutputs signature.output_fields filled_outputs outputs_errors ++
          [Component.submitInput "bg-blue-500 hover:bg-blue-700 text-white font-bold py-2 px-4 rounded focus:outline-none focus:shadow-outline"])]
      "max-w-2xl mx-auto p-8 bg-white rounded-lg shadow-lg")

/-- Query.get: render the form with the bound inputs, an empty draft and no
errors. -/
def Query.get (q : Query) : Except String Component :=
  _form q.signature q.data [] []

/-- The validation loop of Query.post: for each output field in signature
order, subscript formData (raising KeyError when the field is absent — the
subscript is outside the try block), then validate; successes are collected
into parsed_data and failures into errors, in field order, with no
short-circuit. -/
def validateOutputs : List (String × FieldType) → FormData →
    Except String (List (String × Value) × List (String × String))
  | [], _ => Except.ok ([], [])
  | (key, field) :: rest, formData =>
    match formData.lookup key with
    | none => Except.error ("KeyError: " ++ pyq ++ key ++ pyq)
    | some value =>
      match validate_json field value, validateOutputs rest formData with
      | _, Except.error e => Except.error e
      | Except.ok v, Except.ok (ps, es) => Except.ok ((key, v) :: ps, es)
      | Except.error m, Except.ok (ps, es) => Except.ok (ps, (key, m) :: es)

/-- The three server states held in ChatServer.state. -/
inductive SState where
  | waiting
  | query (q : Query)
  | result (r : Result)
deriving Repr

/-- Query.post: validate every output field; when any error was collected,
stay in the same Query state, re-render the form with the submitted draft
and the errors, and leave the event alone; otherwise build the Result whose
prediction groups each parsed value into a one-element completion list, set
the event, and return the Result with its page. -/
def Query.post (q : Query) (query_processed : Bool) (formData : FormData) :
    Except String (SState × Component × Bool) :=
  match validateOutputs q.signature.output_fields formData with
  | Except.error e => Except.error e
  | Except.ok (parsed_data, errors) =>
    if errors ≠ [] then
      match _form q.signature q.data formData errors with
      | Except.error e => Except.error e
      | Except.ok page => Except.ok (SState.query q, page, query_processed)
    else
      let result : Result := ⟨⟨parsed_data.map (fun p => (p.1, [p.2])), q.signature⟩⟩
      Except.ok (SState.result result, result.get, true)

/-- Waiting.get: the waiting placeholder. -/
def Waiting.get : Component := waitingDiv

/-- Waiting.post as written (self, query_processed, **kwargs): ignore the
keyword arguments and return the same state with its render, leaving the
event alone.  Note the handler never manages to call it this way — see
dispatchPost. -/
def Waiting.post (query_processed : Bool) (_kwargs : FormData) : SState × Component × Bool :=
  (SState.waiting, Waiting.get, query_processed)

/-- Result.post as written (self, query_processed, **kwargs): ignore the
keyword arguments and return the same state with its render, leaving the
event alone.  Note the handler never manages to call it this way — see
dispatchPost. -/
def Result.post (r : Result) (query_processed : Bool) (_kwargs : FormData) :
    SState × Component × Bool :=
  (SState.result r, r.get, query_processed)

/-- SState.get: dynamic dispatch of self.state.get(). -/
def SState.get : SState → Except String Component
  | SState.waiting => Except.ok Waiting.get
  | SState.query q => q.get
  | SState.result r => Except.ok r.get

/-- Models the handler call self.state.post(self.query_processed, data),
which passes data as a second positional argument.  Query.post declares a
positional formData parameter and accepts the call; Waiting.post and
Result.post declare only (self, query_processed, **kwargs), so the extra
positional argument raises TypeError before their bodies run. -/
def dispatchPost (state : SState) (query_processed : Bool) (data : FormData) :
    Except String (SState × Component × Bool) :=
  match state with
  | SState.query q => q.post query_processed data
  | SState.waiting =>
    Except.error "TypeError: post() takes 2 positional arguments but 3 were given"
  | SState.result _ =>
    Except.error "TypeError: post() takes 2 positional arguments but 3 were given"

/-- Models the handler line data = FormData(*form.items()): the (name,
value) pairs of the submitted form are unpacked as positional arguments,
but FormData.__init__ accepts fields only as keyword arguments, so any
nonempty form raises TypeError; only an empty form yields the empty
FormData. -/
def formDataOfPositional (items : List (String × String)) : Except String FormData :=
  match items with
  | [] => Except.ok ([] : FormData)
  | _ =>
    Except.error ("TypeError: FormData.__init__() takes 1 positional argument but " ++
      toString (items.length + 1) ++ " were given")

/-- ChatServer.post: build the FormData from the submitted items, then run
the lock-protected section that dispatches to self.state.post and installs
the returned state.  An exception anywhere leaves the shared state and the
event untouched. -/
def ChatServer.handlePost (state : SState) (query_processed : Bool)
    (items : List (String × String)) : Except String (SState × Component × Bool) :=
  match formDataOfPositional items with
  | Except.error e => Except.error e
  | Except.ok data => dispatchPost state query_processed data

/-- The shared server cell: the state and the query_processed event. -/
structure Srv where
  state : SState
  gate : Bool

/-- One lock-protected step of the server: a GET (no mutation), a POST
(install the returned state and event on success, no mutation on an
exception), the first lock section of ChatServer.query (install the new
Query and clear the event; on a construction error nothing is touched), or
the second lock section of ChatServer.query after the event fired (read the
prediction out of the Result, reset to Waiting, clear the event). -/
inductive Step : Srv → Srv → Prop where
  | httpGet (s : Srv) : Step s s
  | httpPostOk (s : Srv) (items : List (String × String)) (st : SState)
      (page : Component) (g : Bool) :
      ChatServer.handlePost s.state s.gate items = Except.ok (st, page, g) →
      Step s ⟨st, g⟩
  | httpPostRaise (s : Srv) (items : List (String × String)) (e : String) :
      ChatServer.handlePost s.state s.gate items = Except.error e →
      Step s s
  | askBegin (s : Srv) (signature : Signature) (data : FormData) (q : Query) :
      Query.init signature data = Except.ok q →
      Step s ⟨SState.query q, false⟩
  | askRaise (s : Srv) (signature : Signature) (data : FormData) (e : String) :
      Query.init signature data = Except.error e →
      Step s s
  | askEnd (s : Srv) (r : Result) :
      s.gate = true → s.state = SState.result r →
      Step s ⟨SState.waiting, false⟩

/-- The states reachable from the initial server cell (Waiting state,
cleared event) under any interleaving of steps. -/
inductive Reachable : Srv → Prop where
  | init : Reachable ⟨SState.waiting, false⟩
  | step (s t : Srv) : Reachable s → Step s t → Reachable t

/-- The value that the validation loop of Query.post associates with an
output field: the raw draft value looked up and validated, none when the
field is absent or fails validation. -/
def parsedValue (formData : FormData) (p : String × FieldType) : Option Value :=
  (formData.lookup p.1).bind (fun raw => (validate_json p.2 raw).toOption)

/-- The error message that the validation loop of Query.post associates
with an output field: some message exactly when the field is present but
fails validation. -/
def fieldErrorValue (formData : FormData) (p : String × FieldType) : Option String :=
  (formData.lookup p.1).bind (fun raw =>
    match validate_json p.2 raw with
    | Except.ok _ => none
    | Except.error m => some m)

/-- The parsed-value map collected by Query.post, in output-field order. -/
def parsedList (outs : List (String × FieldType)) (fd : FormData) : List (String × Value) :=
  outs.filterMap (fun p => (parsedValue fd p).map (fun v => (p.1, v)))

/-- The FieldError map collected by Query.post, in output-field order. -/
def errorsList (outs : List (String × FieldType)) (fd : FormData) : List (String × String) :=
  outs.filterMap (fun p => (fieldErrorValue fd p).map (fun m => (p.1, m)))

/-- All radio controls of a component list: (id, field name, submitted
value, checked). -/
def radiosOf : List Component → List (String × String × String × Bool)
  | [] => []
  | Component.radioInput id nm value checked _ :: cs => (id, nm, value, checked) :: radiosOf cs
  | _ :: cs => radiosOf cs

/-- All free-text controls of a component list: (field name, pre-filled
value). -/
def textareasOf : List Component → List (String × String)
  | [] => []
  | Component.textarea value id _ _ :: cs => (id, value) :: textareasOf cs
  | _ :: cs => textareasOf cs

/-- The test signature of the repository: one str input, one str output. -/
def sigStr : Signature :=
  ⟨[("input_field", ⟨some "This is an input field."⟩)], [("output_field", FieldType.str)]⟩

/-- A Query for sigStr with its input bound, as in the tests. -/
def qStr : Query := ⟨sigStr, [("input_field", "test_input")]⟩

/-- A signature with no fields, for the reachability witness. -/
def sigNil : Signature := ⟨[], []⟩

/-- The Query for the empty signature. -/
def qNil : Query := ⟨sigNil, []⟩

/-- The Result an empty-signature submission produces. -/
def rNil : Result := ⟨⟨[], sigNil⟩⟩

/-- A Result state holding an already-validated answer, for the stray-POST
input. -/
def rStray : Result := ⟨⟨[("output_field", [Value.str "valid_output"])], sigStr⟩⟩

/-- Unfolding of a defined parsedValue: the raw value, its parse, and the
absence of an error entry. -/
theorem parsedValue_elim (fd : FormData) (p : String × FieldType)
    (h : (parsedValue fd p).isSome) :
    ∃ raw v, fd.lookup p.1 = some raw ∧ validate_json p.2 raw = Except.ok v ∧
      parsedValue fd p = some v ∧ fieldErrorValue fd p = none := by
  cases hlook : fd.lookup p.1 with
  | none => simp [parsedValue, hlook] at h
  | some raw =>
    cases hv : validate_json p.2 raw with
    | error m => simp [parsedValue, hlook, hv, Except.toOption] at h
    | ok v =>
      exact ⟨raw, v, rfl, hv, by simp [parsedValue, hlook, hv, Except.toOption],
        by simp [fieldErrorValue, hlook, hv]⟩

/-- When every output field is present in the draft, the validation loop of
Query.post returns exactly the parsed-value map and the FieldError map. -/
theorem validateOutputs_all_present (outs : List (String × FieldType)) (fd : FormData)
    (h : ∀ p ∈ outs, (fd.lookup p.1).isSome) :
    validateOutputs outs fd = Except.ok (parsedList outs fd, errorsList outs fd) := by
  induction outs with
  | nil => rfl
  | cons hd tl ih =>
    obtain ⟨k, ft⟩ := hd
    obtain ⟨raw, hraw⟩ := Option.isSome_iff_exists.mp (h (k, ft) (List.mem_cons_self _ _))
    have ih' := ih (fun p hp => h p (List.mem_cons_of_mem _ hp))
    cases hv : validate_json ft raw with
    | ok v =>
      simp [validateOutputs, hraw, hv, ih', parsedList, errorsList, List.filterMap_cons,
        parsedValue, fieldErrorValue, Except.toOption]
    | error m =>
      simp [validateOutputs, hraw, hv, ih', parsedList, errorsList, List.filterMap_cons,
        parsedValue, fieldErrorValue, Except.toOption]

/-- The validation loop raises KeyError for the first output field, in
signature order, that the draft omits. -/
theorem validateOutputs_missing (outs : List (String × FieldType)) (fd : FormData)
    (k : String) (ft : FieldType)
    (h : outs.find? (fun p => (fd.lookup p.1).isNone) = some (k, ft)) :
    validateOutputs outs fd = Except.error ("KeyError: " ++ pyq ++ k ++ pyq) := by
  induction outs with
  | nil => simp [List.find?] at h
  | cons hd tl ih =>
    obtain ⟨k0, ft0⟩ := hd
    cases hlook : fd.lookup k0 with
    | none =>
      simp only [List.find?, hlook, Option.isNone_none] at h
      injection h with h'
      cases h'
      simp [validateOutputs, hlook]
    | some raw =>
      simp only [List.find?, hlook, Option.isNone_some] at h
      have ih' := ih h
      cases hv : validate_json ft0 raw <;> simp [validateOutputs, hlook, hv, ih']

/-- When every bound input name is a declared input field, the input-display
loop succeeds. -/
theorem inputDisplays_ok_of_declared (S : Signature) (I : FormData)
    (h : ∀ p ∈ I, (S.input_fields.lookup p.1).isSome) :
    ∃ ids, inputDisplays S I = Except.ok ids := by
  induction I with
  | nil => exact ⟨[], rfl⟩
  | cons hd tl ih =>
    obtain ⟨nm, v⟩ := hd
    obtain ⟨f, hf⟩ := Option.isSome_iff_exists.mp (h (nm, v) (List.mem_cons_self _ _))
    obtain ⟨ids, hids⟩ := ih (fun p hp => h p (List.mem_cons_of_mem _ hp))
    simp only [inputDisplays, hf, hids]
    exact ⟨_, rfl⟩

/-- When some bound input name is not a declared input field, the
input-display loop raises KeyError on such a name. -/
theorem inputDisplays_error_of_undeclared (S : Signature) (I : FormData)
    (h : ∃ p ∈ I, (S.input_fields.lookup p.1).isNone) :
    ∃ k, (S.input_fields.lookup k).isNone = true ∧
      inputDisplays S I = Except.error ("KeyError: " ++ pyq ++ k ++ pyq) := by
  induction I with
  | nil => simp at h
  | cons hd tl ih =>
    obtain ⟨nm, v⟩ := hd
    cases hlook : S.input_fields.lookup nm with
    | none => exact ⟨nm, by simp [hlook], by simp [inputDisplays, hlook]⟩
    | some f =>
      have htl : ∃ p ∈ tl, (S.input_fields.lookup p.1).isNone := by
        obtain ⟨p, hp, hnone⟩ := h
        rcases List.mem_cons.mp hp with heq | hmem
        · subst heq; simp [hlook] at hnone
        · exact ⟨p, hmem, hnone⟩
      obtain ⟨k, hk, hrec⟩ := ih htl
      exact ⟨k, hk, by simp [inputDisplays, hlook, hrec]⟩

/-- When every bound input name is declared, _form succeeds. -/
theorem form_ok_of_declared (S : Signature) (I fo : FormData) (errs : List (String × String))
    (h : ∀ p ∈ I, (S.input_fields.lookup p.1).isSome) :
    ∃ page, _form S I fo errs = Except.ok page := by
  obtain ⟨ids, hids⟩ := inputDisplays_ok_of_declared S I h
  simp only [_form, hids]
  exact ⟨_, rfl⟩

/-- Grouping the parsed values into one-element completion lists, field by
field, when every field parses. -/
theorem parsedList_map_singleton (outs : List (String × FieldType)) (fd : FormData)
    (h : ∀ p ∈ outs, (parsedValue fd p).isSome) :
    (parsedList outs fd).map (fun p => (p.1, [p.2])) =
      outs.map (fun p => (p.1, (parsedValue fd p).toList)) := by
  induction outs with
  | nil => rfl
  | cons hd tl ih =>
    obtain ⟨v, hv⟩ := Option.isSome_iff_exists.mp (h hd (List.mem_cons_self _ _))
    calc (parsedList (hd :: tl) fd).map (fun p => (p.1, [p.2]))
        = (hd.1, [v]) :: (parsedList tl fd).map (fun p => (p.1, [p.2])) := by
          simp [parsedList, List.filterMap_cons, hv]
      _ = (hd.1, (parsedValue fd hd).toList) ::
            tl.map (fun p => (p.1, (parsedValue fd p).toList)) := by
          rw [ih (fun p hp => h p (List.mem_cons_of_mem _ hp)), hv]
          rfl
      _ = (hd :: tl).map (fun p => (p.1, (parsedValue fd p).toList)) := by
          rw [List.map_cons]

/-- When every field parses there are no error entries. -/
theorem errorsList_eq_nil (outs : List (String × FieldType)) (fd : FormData)
    (h : ∀ p ∈ outs, (parsedValue fd p).isSome) :
    errorsList outs fd = [] := by
  rw [errorsList, List.filterMap_eq_nil_iff]
  intro p hp
  obtain ⟨raw, v, -, -, -, herr⟩ := parsedValue_elim fd p (h p hp)
  simp [herr]


/-- Radio extraction distributes over list concatenation. -/
theorem radiosOf_append (a b : List Component) :
    radiosOf (a ++ b) = radiosOf a ++ radiosOf b := by
  induction a with
  | nil => rfl
  | cons c cs ih => cases c <;> simp [radiosOf, ih]

/-- Free-text extraction distributes over list concatenation. -/
theorem textareasOf_append (a b : List Component) :
    textareasOf (a ++ b) = textareasOf a ++ textareasOf b := by
  induction a with
  | nil => rfl
  | cons c cs ih => cases c <;> simp [textareasOf, ih]

/-- The radio controls of the rendered radio group: one per allowed value. -/
theorem radiosOf_radioPairs (nm value : String) (vs : List String) :
    radiosOf (vs.flatMap (fun v =>
      [Component.radioInput (nm ++ "_" ++ v) nm ("\"" ++ v ++ "\"") (value == v) "mr-2",
       Component.label v (nm ++ "_" ++ v) "mr-4"])) =
    vs.map (fun v => (nm ++ "_" ++ v, nm, "\"" ++ v ++ "\"", value == v)) := by
  induction vs with
  | nil => rfl
  | cons v vs ih =>
    rw [List.flatMap_cons, radiosOf_append, ih]
    rfl

/-- The rendered radio group holds no free-text control. -/
theorem textareasOf_radioPairs (nm value : String) (vs : List String) :
    textareasOf (vs.flatMap (fun v =>
      [Component.radioInput (nm ++ "_" ++ v) nm ("\"" ++ v ++ "\"") (value == v) "mr-2",
       Component.label v (nm ++ "_" ++ v) "mr-4"])) = [] := by
  induction vs with
  | nil => rfl
  | cons v vs ih =>
    rw [List.flatMap_cons, textareasOf_append, ih]
    rfl

/-- The error paragraph of a form field holds no radio control. -/
theorem radiosOf_errPart (errors : List (String × String)) (name : String) :
    radiosOf (match errors.lookup name with
      | some e => if e = "" then [] else [Component.p e "text-red-500 text-xs italic mt-1"]
      | none => []) = [] := by
  cases errors.lookup name with
  | none => rfl
  | some e => by_cases he : e = "" <;> simp [radiosOf, he]

/-- The error paragraph of a form field holds no free-text control. -/
theorem textareasOf_errPart (errors : List (String × String)) (name : String) :
    textareasOf (match errors.lookup name with
      | some e => if e = "" then [] else [Component.p e "text-red-500 text-xs italic mt-1"]
      | none => []) = [] := by
  cases errors.lookup name with
  | none => rfl
  | some e => by_cases he : e = "" <;> simp [textareasOf, he]

/-- The radio controls of one rendered output field: one per allowed
enumeration value, checked exactly when the draft value equals it. -/
theorem radiosOf_formField (name : String) (ft : FieldType) (filled : FormData)
    (errors : List (String × String)) :
    radiosOf (formField name ft filled errors) =
      (enumValues ft).map (fun v =>
        (name ++ "_" ++ v, name, "\"" ++ v ++ "\"",
         (((filled.lookup name).getD "") == v))) := by
  rw [formField]
  by_cases hvs : enumValues ft = []
  · rw [if_neg (by simp [hvs])]
    simp [radiosOf_append, radiosOf, hvs]
    exact radiosOf_errPart errors name
  · rw [if_pos hvs]
    simp [radiosOf_append, radiosOf, radiosOf_radioPairs]
    exact radiosOf_errPart errors name

/-- The free-text controls of one rendered output field: exactly one,
seeded with the draft value, when the field is not enumeration-typed. -/
theorem textareasOf_formField (name : String) (ft : FieldType) (filled : FormData)
    (errors : List (String × String)) :
    textareasOf (formField name ft filled errors) =
      (if enumValues ft = [] then [(name, (filled.lookup name).getD "")] else []) := by
  rw [formField]
  by_cases hvs : enumValues ft = []
  · rw [if_neg (by simp [hvs])]
    simp [textareasOf_append, textareasOf, hvs]
    exact textareasOf_errPart errors name
  · rw [if_pos hvs]
    simp [textareasOf_append, textareasOf, textareasOf_radioPairs, hvs]
    exact textareasOf_errPart errors name

/-- A successful POST that installs a Result state has set the event in the
same call: the success branch of Query.post is the only way handlePost
produces a Result, and it returns the event set to true. -/
theorem handlePost_ok_result_signaled (st : SState) (g : Bool)
    (items : List (String × String)) (st' : SState) (page : Component) (g' : Bool)
    (h : ChatServer.handlePost st g items = Except.ok (st', page, g')) :
    ∀ r : Result, st' = SState.result r → g' = true := by
  intro r hr
  subst hr
  cases items with
  | cons a l => simp [ChatServer.handlePost, formDataOfPositional] at h
  | nil =>
    rw [ChatServer.handlePost] at h
    simp only [formDataOfPositional] at h
    cases st with
    | waiting => simp [dispatchPost] at h
    | result r0 => simp [dispatchPost] at h
    | query q =>
      rw [dispatchPost, Query.post] at h
      split at h
      · cases h
      · split at h
        · split at h
          · cases h
          · injection h with h'
            exact SState.noConfusion
              (congrArg (fun t : SState × Component × Bool => t.1) h')
        · injection h with h'
          exact (congrArg (fun t : SState × Component × Bool => t.2.2) h').symm

/-- C3: In every reachable state of the server step relation — any
interleaving of serialized lock-protected query, GET and POST steps — the
shared state is never a Result (Answered) with the event unsignaled: the
step that installs a Result sets the event in the same lock-protected step,
so a waiting caller never observes Answered without the gate signaled. -/
theorem reachable_result_implies_gate_signaled (s : Srv) (h : Reachable s) :
    ∀ r : Result, s.state = SState.result r → s.gate = true := by
  induction h with
  | init => intro r hr; cases hr
  | step s t hs hstep ih =>
    cases hstep with
    | httpGet => exact ih
    | httpPostOk items st page g hok =>
      intro r hr
      exact handlePost_ok_result_signaled s.state s.gate items st page g hok r hr
    | httpPostRaise items e hraise => exact ih
    | askBegin signature data q hinit => intro r hr; cases hr
    | askRaise signature data e hinit => exact ih
    | askEnd r hg hr => intro r0 hr0; cases hr0

/-- Witness for C3: a concrete reachable Answered state — Waiting, then the
first lock section of a query for the empty signature, then a successful
empty POST — carries a signaled gate. -/
theorem reachable_result_implies_gate_signaled_witness :
    (⟨SState.result rNil, true⟩ : Srv).gate = true :=
  reachable_result_implies_gate_signaled ⟨SState.result rNil, true⟩
    (Reachable.step ⟨SState.query qNil, false⟩ ⟨SState.result rNil, true⟩
      (Reachable.step ⟨SState.waiting, false⟩ ⟨SState.query qNil, false⟩
        Reachable.init
        (Step.askBegin ⟨SState.waiting, false⟩ sigNil [] qNil rfl))
      (Step.httpPostOk ⟨SState.query qNil, false⟩ [] (SState.result rNil) rNil.get true rfl))
    rNil rfl

/-- C1: submitting a draft in which every output field of the signature
validates returns an Answered (Result) state whose prediction holds exactly
the parsed values, grouped as a one-element completion list per output
field, and sets the event so the waiting caller is released. -/
theorem query_post_all_valid_answers_and_signals (q : Query) (g : Bool) (fd : FormData)
    (h : ∀ p ∈ q.signature.output_fields, (parsedValue fd p).isSome) :
    ∃ r : Result,
      q.post g fd = Except.ok (SState.result r, r.get, true) ∧
      r.prediction.signature = q.signature ∧
      r.prediction.completions =
        q.signature.output_fields.map (fun p => (p.1, (parsedValue fd p).toList)) ∧
      ∀ c ∈ r.prediction.completions, c.2.length = 1 := by
  have hall : ∀ p ∈ q.signature.output_fields, (fd.lookup p.1).isSome := by
    intro p hp
    obtain ⟨raw, v, hraw, -, -, -⟩ := parsedValue_elim fd p (h p hp)
    simp [hraw]
  have herr : errorsList q.signature.output_fields fd = [] :=
    errorsList_eq_nil _ fd h
  have hvo := validateOutputs_all_present q.signature.output_fields fd hall
  rw [herr] at hvo
  refine ⟨⟨⟨(parsedList q.signature.output_fields fd).map (fun p => (p.1, [p.2])),
    q.signature⟩⟩, ?_, rfl, ?_, ?_⟩
  · rw [Query.post, hvo]
    rfl
  · exact parsedList_map_singleton _ fd h
  · intro c hc
    rw [parsedList_map_singleton _ fd h] at hc
    obtain ⟨p, hp, hpc⟩ := List.mem_map.mp hc
    obtain ⟨raw, v, -, -, hpv, -⟩ := parsedValue_elim fd p (h p hp)
    rw [← hpc, hpv]
    rfl

/-- Witness for C1: the test signature with draft output_field set to the
JSON string valid_output submits successfully. -/
theorem query_post_all_valid_answers_and_signals_witness :
    ∃ r : Result,
      Query.post qStr false [("output_field", "\"valid_output\"")] =
        Except.ok (SState.result r, r.get, true) ∧
      r.prediction.signature = qStr.signature ∧
      r.prediction.completions =
        qStr.signature.output_fields.map (fun p =>
          (p.1, (parsedValue [("output_field", "\"valid_output\"")] p).toList)) ∧
      ∀ c ∈ r.prediction.completions, c.2.length = 1 :=
  query_post_all_valid_answers_and_signals qStr false
    [("output_field", "\"valid_output\"")] (by decide)

/-- C2: submitting a draft that covers every output field but fails
validation on at least one returns the very same Query (AwaitingAnswer)
state — Question unchanged — together with the form re-rendered from the
unchanged bound inputs, the submitted raw draft verbatim and the collected
FieldError map, which holds an entry for each failing field; the event is
returned unchanged, so the waiting caller is not released. -/
theorem query_post_invalid_field_reprompts (q : Query) (g : Bool) (fd : FormData)
    (hdata : ∀ p ∈ q.data, (q.signature.input_fields.lookup p.1).isSome)
    (hall : ∀ p ∈ q.signature.output_fields, (fd.lookup p.1).isSome)
    (hfail : errorsList q.signature.output_fields fd ≠ []) :
    ∃ page,
      _form q.signature q.data fd (errorsList q.signature.output_fields fd) =
        Except.ok page ∧
      q.post g fd = Except.ok (SState.query q, page, g) ∧
      ∀ p ∈ q.signature.output_fields, ∀ m, fieldErrorValue fd p = some m →
        (p.1, m) ∈ errorsList q.signature.output_fields fd := by
  obtain ⟨page, hpage⟩ :=
    form_ok_of_declared q.signature q.data fd (errorsList q.signature.output_fields fd) hdata
  refine ⟨page, hpage, ?_, ?_⟩
  · rw [Query.post, validateOutputs_all_present q.signature.output_fields fd hall]
    dsimp only
    rw [if_pos hfail, hpage]
  · intro p hp m hm
    exact List.mem_filterMap.mpr ⟨p, hp, by simp [hm]⟩

/-- Witness for C2: a draft holding the non-JSON text abc for the str
output field fails validation and re-prompts without signaling. -/
theorem query_post_invalid_field_reprompts_witness :
    ∃ page,
      _form qStr.signature qStr.data [("output_field", "abc")]
        (errorsList qStr.signature.output_fields [("output_field", "abc")]) =
        Except.ok page ∧
      Query.post qStr true [("output_field", "abc")] =
        Except.ok (SState.query qStr, page, true) ∧
      ∀ p ∈ qStr.signature.output_fields, ∀ m,
        fieldErrorValue [("output_field", "abc")] p = some m →
        (p.1, m) ∈ errorsList qStr.signature.output_fields [("output_field", "abc")] :=
  query_post_invalid_field_reprompts qStr true [("output_field", "abc")]
    (by decide) (by decide) (by decide)

/-- C8: validation inspects every output field before any decision — no
short-circuit on the first error — so the FieldError map a failed
submission renders holds, simultaneously, exactly one entry per failing
field: every field whose raw value fails validation contributes its entry,
and every entry comes from such a field. -/
theorem query_post_collects_every_error (q : Query) (g : Bool) (fd : FormData)
    (hdata : ∀ p ∈ q.data, (q.signature.input_fields.lookup p.1).isSome)
    (hall : ∀ p ∈ q.signature.output_fields, (fd.lookup p.1).isSome)
    (hfail : errorsList q.signature.output_fields fd ≠ []) :
    ∃ page,
      q.post g fd = Except.ok (SState.query q, page, g) ∧
      _form q.signature q.data fd (errorsList q.signature.output_fields fd) =
        Except.ok page ∧
      (∀ p ∈ q.signature.output_fields, ∀ raw m, fd.lookup p.1 = some raw →
        validate_json p.2 raw = Except.error m →
        (p.1, m) ∈ errorsList q.signature.output_fields fd) ∧
      (∀ k m, (k, m) ∈ errorsList q.signature.output_fields fd →
        ∃ p, p ∈ q.signature.output_fields ∧ p.1 = k ∧ fieldErrorValue fd p = some m) := by
  obtain ⟨page, hpage⟩ :=
    form_ok_of_declared q.signature q.data fd (errorsList q.signature.output_fields fd) hdata
  refine ⟨page, ?_, hpage, ?_, ?_⟩
  · rw [Query.post, validateOutputs_all_present q.signature.output_fields fd hall]
    dsimp only
    rw [if_pos hfail, hpage]
  · intro p hp raw m hraw hm
    exact List.mem_filterMap.mpr ⟨p, hp, by simp [fieldErrorValue, hraw, hm]⟩
  · intro k m hkm
    obtain ⟨p, hp, hpf⟩ := List.mem_filterMap.mp hkm
    cases hfe : fieldErrorValue fd p with
    | none => rw [hfe] at hpf; cases hpf
    | some m0 =>
      rw [hfe] at hpf
      injection hpf with h'
      injection h' with h1 h2
      exact ⟨p, hp, h1, by rw [hfe, h2]⟩

/-- Witness for C8: a two-output signature whose draft fails both fields
collects both error entries in one submission. -/
theorem query_post_collects_every_error_witness :
    ∃ page,
      Query.post ⟨⟨[], [("a", FieldType.str), ("b", FieldType.int)]⟩, []⟩ false
          [("a", "bad"), ("b", "bad")] =
        Except.ok (SState.query ⟨⟨[], [("a", FieldType.str), ("b", FieldType.int)]⟩, []⟩,
          page, false) ∧
      _form ⟨[], [("a", FieldType.str), ("b", FieldType.int)]⟩ [] [("a", "bad"), ("b", "bad")]
        (errorsList [("a", FieldType.str), ("b", FieldType.int)] [("a", "bad"), ("b", "bad")]) =
        Except.ok page ∧
      (∀ p ∈ ([("a", FieldType.str), ("b", FieldType.int)] : List (String × FieldType)),
        ∀ raw m, List.lookup p.1 [("a", "bad"), ("b", "bad")] = some raw →
        validate_json p.2 raw = Except.error m →
        (p.1, m) ∈ errorsList [("a", FieldType.str), ("b", FieldType.int)]
          [("a", "bad"), ("b", "bad")]) ∧
      (∀ k m, (k, m) ∈ errorsList [("a", FieldType.str), ("b", FieldType.int)]
          [("a", "bad"), ("b", "bad")] →
        ∃ p, p ∈ ([("a", FieldType.str), ("b", FieldType.int)] : List (String × FieldType)) ∧
          p.1 = k ∧ fieldErrorValue [("a", "bad"), ("b", "bad")] p = some m) :=
  query_post_collects_every_error ⟨⟨[], [("a", FieldType.str), ("b", FieldType.int)]⟩, []⟩
    false [("a", "bad"), ("b", "bad")] (by decide) (by decide) (by decide)

/-- C5 counterexample: submitting a draft that omits the str output field
of the test signature makes submit raise KeyError — it does not return a
re-rendered page with a per-field validation error, because the formData
subscript sits outside the try block of Query.post. -/
theorem query_post_omitted_field_raises_cex :
    Query.post qStr false [] = Except.error ("KeyError: " ++ pyq ++ "output_field" ++ pyq) ∧
    ∀ res : SState × Component × Bool, Query.post qStr false [] ≠ Except.ok res := by
  constructor
  · rfl
  · intro res h
    rw [show Query.post qStr false [] =
      Except.error ("KeyError: " ++ pyq ++ "output_field" ++ pyq) from rfl] at h
    exact Except.noConfusion h

/-- C5 amended: when the draft omits one or more output fields, submit
raises KeyError naming the first omitted output field in signature order;
the omission is not converted into a per-field validation error. -/
theorem query_post_omitted_field_raises (q : Query) (g : Bool) (fd : FormData)
    (k : String) (ft : FieldType)
    (h : q.signature.output_fields.find? (fun p => (fd.lookup p.1).isNone) = some (k, ft)) :
    q.post g fd = Except.error ("KeyError: " ++ pyq ++ k ++ pyq) := by
  rw [Query.post, validateOutputs_missing q.signature.output_fields fd k ft h]

/-- Witness for the amended C5: the empty draft against the test signature
raises KeyError on its only output field. -/
theorem query_post_omitted_field_raises_witness :
    Query.post qStr false [] = Except.error ("KeyError: " ++ pyq ++ "output_field" ++ pyq) :=
  query_post_omitted_field_raises qStr false [] "output_field" FieldType.str rfl

/-- C7: Question construction succeeds exactly when the supplied data binds
every declared input field; on failure it raises a ValueError naming the
(first) missing field, and the constructed Query stores the signature and
data unchanged.  In the server step relation, construction runs before the
shared state is assigned, so a failing construction leaves the state
untouched (Step.askRaise). -/
theorem query_init_succeeds_iff_complete (S : Signature) (I : FormData) :
    ((∃ q, Query.init S I = Except.ok q) ↔
      ∀ p ∈ S.input_fields, (I.lookup p.1).isSome) ∧
    (∀ q, Query.init S I = Except.ok q → q = ⟨S, I⟩) ∧
    (∀ p, S.input_fields.find? (fun p => (I.lookup p.1).isNone) = some p →
      Query.init S I = Except.error ("Missing input field " ++ pyq ++ p.1 ++ pyq ++ " in data")) := by
  cases hf : S.input_fields.find? (fun p => (I.lookup p.1).isNone) with
  | none =>
    refine ⟨⟨fun _ => ?_, fun _ => ⟨⟨S, I⟩, by rw [Query.init, hf]⟩⟩, ?_, ?_⟩
    · intro p hp
      have := List.find?_eq_none.mp hf p hp
      simpa [Option.isNone_iff_eq_none, ← Option.ne_none_iff_isSome] using this
    · intro q hq
      rw [Query.init, hf] at hq
      injection hq with h'
      exact h'.symm
    · intro p hp
      cases hp
  | some p0 =>
    have hmem := List.mem_of_find?_eq_some hf
    have hpred := List.find?_some hf
    refine ⟨⟨fun hq => ?_, fun hall => ?_⟩, ?_, ?_⟩
    · obtain ⟨q, hq⟩ := hq
      rw [Query.init, hf] at hq
      cases hq
    · have := hall p0 hmem
      rw [Option.isNone_iff_eq_none] at hpred
      rw [hpred] at this
      cases this
    · intro q hq
      rw [Query.init, hf] at hq
      cases hq
    · intro p hp
      injection hp with h'
      subst h'
      rw [Query.init, hf]

/-- Witness for C7: constructing a Question for the test signature with an
empty input map fails naming input_field; with the bound input it succeeds
and stores signature and data. -/
theorem query_init_succeeds_iff_complete_witness :
    Query.init sigStr [] =
      Except.error ("Missing input field " ++ pyq ++ "input_field" ++ pyq ++ " in data") ∧
    qStr = (⟨sigStr, [("input_field", "test_input")]⟩ : Query) :=
  ⟨(query_init_succeeds_iff_complete sigStr []).2.2
      ("input_field", ⟨some "This is an input field."⟩) rfl,
    (query_init_succeeds_iff_complete sigStr [("input_field", "test_input")]).2.1 qStr rfl⟩

/-- C4 divergence: a POST arriving while the state is Waiting or Result is
meant to be a no-op — and the bodies of Waiting.post and Result.post do
return the same state with its render — but the handler passes the form
data as an extra positional argument that those methods only accept as
keyword arguments, so the dispatch raises TypeError instead of re-rendering
(shown here on an empty body, which is the only body that survives the
FormData construction). -/
theorem stray_post_raises_typeerror :
    ChatServer.handlePost SState.waiting false [] =
      Except.error "TypeError: post() takes 2 positional arguments but 3 were given" ∧
    ChatServer.handlePost (SState.result rStray) true [] =
      Except.error "TypeError: post() takes 2 positional arguments but 3 were given" ∧
    Waiting.post false [] = (SState.waiting, Waiting.get, false) ∧
    Result.post rStray true [] = (SState.result rStray, rStray.get, true) :=
  ⟨rfl, rfl, rfl, rfl⟩

/-- C6 divergence: a POST whose body holds one raw string per output field
— here the single str field of the test signature — raises TypeError while
building the FormData, because the handler unpacks the submitted pairs as
positional arguments into a keyword-only constructor; no page is returned. -/
theorem post_nonempty_body_raises_typeerror :
    ChatServer.handlePost (SState.query qStr) false
        [("output_field", "\"valid_output\"")] =
      Except.error
        "TypeError: FormData.__init__() takes 1 positional argument but 2 were given" :=
  rfl

/-- C9: across the whole output-field loop of _form, the radio controls are
exactly one per allowed enumeration value of each enumeration-typed field —
with id field_name_value, the field name, the JSON-quoted submitted value,
and checked precisely when the current draft value equals the allowed value
— and the free-text controls are exactly one per non-enumeration field,
pre-filled with the current draft value. -/
theorem formOutputs_controls (outs : List (String × FieldType)) (filled : FormData)
    (errors : List (String × String)) :
    radiosOf (formOutputs outs filled errors) =
      outs.flatMap (fun p => (enumValues p.2).map (fun v =>
        (p.1 ++ "_" ++ v, p.1, "\"" ++ v ++ "\"",
         (((filled.lookup p.1).getD "") == v)))) ∧
    textareasOf (formOutputs outs filled errors) =
      outs.filterMap (fun p =>
        if enumValues p.2 = [] then some (p.1, (filled.lookup p.1).getD "") else none) := by
  induction outs with
  | nil => exact ⟨rfl, rfl⟩
  | cons hd tl ih =>
    obtain ⟨name, ft⟩ := hd
    constructor
    · rw [formOutputs, radiosOf_append, radiosOf_formField, ih.1, List.flatMap_cons]
    · rw [formOutputs, textareasOf_append, textareasOf_formField, ih.2, List.filterMap_cons]
      by_cases hvs : enumValues ft = [] <;> simp [hvs]

/-- C10: when the bound input values cover every declared input field and
also hold a key that is not a declared input field, Question construction
accepts the data — only missing declared fields are checked — but rendering
the resulting AwaitingAnswer page raises KeyError on the undeclared key,
whose field descriptor the input-display loop looks up. -/
theorem query_init_extra_key_render_raises (S : Signature) (I : FormData)
    (hcomplete : ∀ p ∈ S.input_fields, (I.lookup p.1).isSome)
    (hextra : ∃ p ∈ I, (S.input_fields.lookup p.1).isNone) :
    ∃ q : Query, Query.init S I = Except.ok q ∧
      ∃ k, (S.input_fields.lookup k).isNone = true ∧
        Query.get q = Except.error ("KeyError: " ++ pyq ++ k ++ pyq) := by
  have hf : S.input_fields.find? (fun p => (I.lookup p.1).isNone) = none := by
    rw [List.find?_eq_none]
    intro p hp
    rw [Option.isNone_iff_eq_none]
    exact Option.ne_none_iff_isSome.mpr (hcomplete p hp)
  refine ⟨⟨S, I⟩, by rw [Query.init, hf], ?_⟩
  obtain ⟨k, hk, hids⟩ := inputDisplays_error_of_undeclared S I hextra
  refine ⟨k, hk, ?_⟩
  rw [Query.get, _form, hids]

/-- Witness for C10: the test signature with its input bound plus an extra
bogus key constructs, and rendering raises KeyError on the bogus key. -/
theorem query_init_extra_key_render_raises_witness :
    ∃ q : Query,
      Query.init sigStr [("input_field", "test_input"), ("bogus", "y")] = Except.ok q ∧
      ∃ k, (List.lookup k sigStr.input_fields).isNone = true ∧
        Query.get q = Except.error ("KeyError: " ++ pyq ++ k ++ pyq) :=
  query_init_extra_key_render_raises sigStr [("input_field", "test_input"), ("bogus", "y")]
    (by decide) (by decide)
